import Mathlib

/-!
Shallow embedding of the windowing core of the wlmessage toytoolkit.

The repository sources expose the data model in `src/toytoolkit/types.h`
(struct display, surface, window, widget, input, shm_pool, toysurface);
the function bodies of the toolkit (window.c) are not part of the
sources.  Each operation below is therefore modelled from the spec, as a
faithful transcription of the behaviour the spec describes for the
corresponding struct fields, with a doc comment naming what is missing.
-/

namespace WlMessage

/-- `struct rectangle` as used for allocations throughout `types.h`
(`allocation`, `server_allocation`, `saved_allocation`,
`min_allocation`, `pending_allocation`). -/
structure Rectangle where
  x : Int
  y : Int
  width : Int
  height : Int
deriving DecidableEq, Repr

/-! ### C1: per-surface buffer state machine (prepare / swap) -/

/-- The buffer states of a surface described in spec section 4.2:
idle, pending-canvas (after `prepare`), committed (after `swap`). -/
inductive BufferState
  | idle
  | pendingCanvas
  | committed
deriving DecidableEq, Repr

/-- State of one surface's buffer manager: the buffer state, a counter
producing fresh canvas identities, and the canvas outstanding from the
last `prepare` (mirrors `struct surface`'s `toysurface` producer plus
its `cairo_surface` field in `types.h`). -/
structure SurfaceSM where
  buf : BufferState
  nextCanvas : Nat
  active : Option Nat
deriving DecidableEq, Repr

/-- Operations a client or the server performs on one surface. -/
inductive SurfaceOp
  | prepare
  | swap
  | frameDone
deriving DecidableEq, Repr

/-- Observable outcome of one surface operation: a fresh canvas, a
reported double-prepare implementation error, a successful submit, or a
reported protocol violation (spec section 7: reported, handling
continues). -/
inductive SurfaceEvent
  | canvas (id : Nat)
  | doublePrepareError
  | swapped (id : Nat)
  | frameDelivered
  | protocolError
deriving DecidableEq, Repr

/-- Modelled from the spec: the per-surface buffer state machine of the
surface/buffer manager (spec section 4.2); the implementing code
(window.c) is not among the sources, only `struct toysurface` in
`src/toytoolkit/types.h:145-185` declares the `prepare`/`swap`
capability set.  `prepare` is admitted only from idle and returns a
fresh canvas; repeated `prepare` without an intervening `swap` is
reported as an error and changes nothing; `swap` submits the active
canvas; the frame callback returns the surface to idle. -/
def surfaceStep (s : SurfaceSM) : SurfaceOp → SurfaceSM × SurfaceEvent
  | .prepare =>
    match s.buf with
    | .idle =>
      ({ buf := .pendingCanvas, nextCanvas := s.nextCanvas + 1,
         active := some s.nextCanvas }, .canvas s.nextCanvas)
    | _ => (s, .doublePrepareError)
  | .swap =>
    match s.buf, s.active with
    | .pendingCanvas, some i => ({ s with buf := .committed, active := none }, .swapped i)
    | _, _ => (s, .protocolError)
  | .frameDone =>
    match s.buf with
    | .committed => ({ s with buf := .idle }, .frameDelivered)
    | _ => (s, .protocolError)

/-- Run a sequence of surface operations, collecting the events. -/
def surfaceRun (s : SurfaceSM) : List SurfaceOp → SurfaceSM × List SurfaceEvent
  | [] => (s, [])
  | op :: ops =>
    let (s', e) := surfaceStep s op
    let (s'', es) := surfaceRun s' ops
    (s'', e :: es)

/-- The surface state at creation: idle, no canvas handed out. -/
def initSurface : SurfaceSM := { buf := .idle, nextCanvas := 0, active := none }

/-- The canvas identity carried by an event, when it is a `canvas`. -/
def canvasId : SurfaceEvent → Option Nat
  | .canvas i => some i
  | _ => none

/-- The canvas identities handed out by `prepare` during a run. -/
def canvasIds (es : List SurfaceEvent) : List Nat := es.filterMap canvasId

theorem surfaceRun_cons (s : SurfaceSM) (op : SurfaceOp) (ops : List SurfaceOp) :
    surfaceRun s (op :: ops) =
      ((surfaceRun (surfaceStep s op).1 ops).1,
        (surfaceStep s op).2 :: (surfaceRun (surfaceStep s op).1 ops).2) := by
  simp [surfaceRun]

theorem surfaceStep_nextCanvas_le (s : SurfaceSM) (op : SurfaceOp) :
    s.nextCanvas ≤ (surfaceStep s op).1.nextCanvas := by
  cases op <;> cases h : s.buf <;>
    simp [surfaceStep, h] <;>
    cases h' : s.active <;> simp [h']

theorem surfaceRun_ids_lower_bound (ops : List SurfaceOp) :
    ∀ s : SurfaceSM, ∀ i ∈ canvasIds (surfaceRun s ops).2, s.nextCanvas ≤ i := by
  induction ops with
  | nil => intro s i hi; simp [surfaceRun, canvasIds] at hi
  | cons op ops ih =>
    intro s i hi
    rw [surfaceRun_cons] at hi
    cases op with
    | prepare =>
      cases h : s.buf with
      | idle =>
        simp only [surfaceStep, h] at hi
        simp only [canvasIds, canvasId, List.filterMap_cons, Option.toList, List.mem_cons] at hi
        rcases hi with rfl | hi
        · exact le_refl _
        · have := ih _ i hi
          simp only [surfaceStep, h] at this
          omega
      | pendingCanvas =>
        simp only [surfaceStep, h, canvasIds, canvasId, List.filterMap_cons] at hi
        exact ih _ i hi
      | committed =>
        simp only [surfaceStep, h, canvasIds, canvasId, List.filterMap_cons] at hi
        exact ih _ i hi
    | swap =>
      cases h : s.buf <;> cases h' : s.active <;>
        simp only [surfaceStep, h, h', canvasIds, canvasId, List.filterMap_cons] at hi <;>
        first
        | exact ih _ i hi
        | · have := ih _ i hi
            simpa using this
    | frameDone =>
      cases h : s.buf <;>
        simp only [surfaceStep, h, canvasIds, canvasId, List.filterMap_cons] at hi <;>
        first
        | exact ih _ i hi
        | · have := ih _ i hi
            simpa using this

theorem surfaceRun_ids_sorted (ops : List SurfaceOp) :
    ∀ s : SurfaceSM, (canvasIds (surfaceRun s ops).2).Sorted (· < ·) := by
  induction ops with
  | nil => intro s; simp [surfaceRun, canvasIds]
  | cons op ops ih =>
    intro s
    rw [surfaceRun_cons]
    cases op with
    | prepare =>
      cases h : s.buf with
      | idle =>
        simp only [surfaceStep, h, canvasIds, canvasId, List.filterMap_cons]
        refine List.sorted_cons.mpr ⟨?_, ih _⟩
        intro b hb
        have := surfaceRun_ids_lower_bound ops _ b hb
        simp only at this
        omega
      | pendingCanvas => simp only [surfaceStep, h, canvasIds, canvasId, List.filterMap_cons]; exact ih _
      | committed => simp only [surfaceStep, h, canvasIds, canvasId, List.filterMap_cons]; exact ih _
    | swap =>
      cases h : s.buf <;> cases h' : s.active <;>
        simp only [surfaceStep, h, h', canvasIds, canvasId, List.filterMap_cons] <;> exact ih _
    | frameDone =>
      cases h : s.buf <;> simp only [surfaceStep, h, canvasIds, canvasId, List.filterMap_cons] <;> exact ih _

/-- Claim C1: for every sequence of `prepare`/`swap`/frame-callback
operations on a surface, the canvases handed out by `prepare` are
pairwise distinct — so a canvas is never handed out again (reused)
after its matching `swap` — and the state machine admits exactly the
transitions idle → pending-canvas (`prepare`) → committed (`swap`) →
idle (frame callback): `prepare` in any non-idle state (in particular a
second `prepare` without an intervening `swap`) is detected and
reported as a double-prepare error rather than silently ignored, and it
changes no state. -/
theorem prepare_swap_discipline (ops : List SurfaceOp) :
    (canvasIds (surfaceRun initSurface ops).2).Nodup
  ∧ (∀ s : SurfaceSM, s.buf ≠ .idle →
      surfaceStep s .prepare = (s, .doublePrepareError))
  ∧ (∀ s : SurfaceSM, s.buf = .idle →
      (surfaceStep s .prepare).1.buf = .pendingCanvas ∧
      (surfaceStep s .prepare).2 = .canvas s.nextCanvas)
  ∧ (∀ s : SurfaceSM, ∀ i : Nat, s.buf = .pendingCanvas → s.active = some i →
      (surfaceStep s .swap).1.buf = .committed ∧
      (surfaceStep s .swap).2 = .swapped i)
  ∧ (∀ s : SurfaceSM, s.buf = .committed →
      (surfaceStep s .frameDone).1.buf = .idle) := by
  refine ⟨(surfaceRun_ids_sorted ops initSurface).nodup, ?_, ?_, ?_, ?_⟩
  · intro s hs
    cases h : s.buf with
    | idle => exact absurd h hs
    | pendingCanvas => simp [surfaceStep, h]
    | committed => simp [surfaceStep, h]
  · intro s hs; simp [surfaceStep, hs]
  · intro s i hs ha; simp [surfaceStep, hs, ha]
  · intro s hs; simp [surfaceStep, hs]

/-- Concrete instance of claim C1: prepare, prepare again without a
swap (reported as a double-prepare), then swap and frame callback. -/
theorem prepare_swap_discipline_witness :
    (canvasIds (surfaceRun initSurface
        [.prepare, .prepare, .swap, .frameDone]).2).Nodup
  ∧ surfaceStep { buf := .pendingCanvas, nextCanvas := 1, active := some 0 } .prepare
      = ({ buf := .pendingCanvas, nextCanvas := 1, active := some 0 },
          .doublePrepareError)
  ∧ (surfaceStep initSurface .prepare).2 = .canvas 0 := by
  refine ⟨(prepare_swap_discipline [.prepare, .prepare, .swap, .frameDone]).1,
    (prepare_swap_discipline []).2.1 _ (by decide), ?_⟩
  exact ((prepare_swap_discipline []).2.2.1 initSurface (by decide)).2

/-! ### C2: per-seat pointer grab routing -/

/-- Per-seat pointer routing state: the current focus widget and the
active grab, mirroring the single `focus_widget`, `grab` and
`grab_button` fields of `struct input` in
`src/toytoolkit/types.h:317-319` — one optional grab per seat.  Widgets
are identified by a natural number handle. -/
structure InputState where
  focusWidget : Nat
  grab : Option (Nat × Nat)
deriving DecidableEq, Repr

/-- A pointer event, already hit-tested: `over` is the widget the
cursor is over at the event's position (possibly outside any grab
widget's allocation). -/
inductive PointerEvent
  | motion (over : Nat)
  | buttonDown (b : Nat) (over : Nat)
  | buttonUp (b : Nat) (over : Nat)
deriving DecidableEq, Repr

/-- Modelled from the spec: per-seat pointer dispatch of the input
dispatcher (spec section 4.5); the implementing code (window.c) is not
among the sources, only the `grab`/`grab_button` fields of
`struct input` in `src/toytoolkit/types.h` record the state.  With no
grab, events route to the widget under the cursor and a button press
establishes a grab on it; with a grab active, every event routes to the
grab widget regardless of position, a second press establishes no new
grab, and releasing the grab button clears the grab.  Returns the new
state and the widget the event was routed to. -/
def inputStep (s : InputState) : PointerEvent → InputState × Nat
  | .motion over =>
    match s.grab with
    | some (w, _) => (s, w)
    | none => ({ s with focusWidget := over }, over)
  | .buttonDown b over =>
    match s.grab with
    | some (w, _) => (s, w)
    | none => ({ focusWidget := over, grab := some (over, b) }, over)
  | .buttonUp b over =>
    match s.grab with
    | some (w, gb) =>
      if b = gb then ({ s with grab := none }, w) else (s, w)
    | none => (s, over)

/-- Run a sequence of pointer events, collecting the routing targets. -/
def inputRun (s : InputState) : List PointerEvent → InputState × List Nat
  | [] => (s, [])
  | e :: es =>
    let (s', t) := inputStep s e
    let (s'', ts) := inputRun s' es
    (s'', t :: ts)

theorem inputRun_cons (s : InputState) (e : PointerEvent) (es : List PointerEvent) :
    inputRun s (e :: es) =
      ((inputRun (inputStep s e).1 es).1,
        (inputStep s e).2 :: (inputRun (inputStep s e).1 es).2) := by
  simp [inputRun]

theorem inputStep_grabbed (s : InputState) (w b : Nat) (hg : s.grab = some (w, b))
    (e : PointerEvent) (hne : ∀ over, e ≠ .buttonUp b over) :
    (inputStep s e).1.grab = some (w, b) ∧ (inputStep s e).2 = w := by
  cases e with
  | motion over => simp [inputStep, hg]
  | buttonDown b' over => simp [inputStep, hg]
  | buttonUp b' over =>
    have hbb : b' ≠ b := by
      intro hb; exact hne over (by rw [hb])
    simp [inputStep, hg, hbb]

/-- Claim C2: at most one pointer grab is active per seat (the state
holds a single optional grab, and a press while a grab is active
establishes no new one), and once a grab is established by pressing
button `b` on widget `w`, every subsequent pointer event — motion or
button, at any position `over`, including positions outside `w`'s
allocation — is routed to `w` as long as no release of `b` occurs;
releasing `b` routes to `w` one last time and clears the grab. -/
theorem grab_exclusive_routing (s : InputState) (w b : Nat)
    (hg : s.grab = some (w, b)) (es : List PointerEvent)
    (hnu : ∀ over, PointerEvent.buttonUp b over ∉ es) :
    (∀ t ∈ (inputRun s es).2, t = w)
  ∧ (inputRun s es).1.grab = some (w, b)
  ∧ (∀ over, (inputStep s (.buttonUp b over)).1.grab = none
      ∧ (inputStep s (.buttonUp b over)).2 = w)
  ∧ (∀ b' over, (inputStep s (.buttonDown b' over)).1.grab = some (w, b)) := by
  refine ⟨?_, ?_, ?_, ?_⟩
  · induction es generalizing s with
    | nil => intro t ht; simp [inputRun] at ht
    | cons e es ih =>
      intro t ht
      rw [inputRun_cons] at ht
      have hne : ∀ over, e ≠ .buttonUp b over := by
        intro over he
        exact hnu over (by rw [← he]; exact List.mem_cons_self e es)
      obtain ⟨hg', hr⟩ := inputStep_grabbed s w b hg e hne
      rcases List.mem_cons.mp ht with rfl | ht
      · exact hr
      · exact ih _ hg' (fun over hov => hnu over (List.mem_cons_of_mem e hov)) t ht
  · induction es generalizing s with
    | nil => simpa [inputRun] using hg
    | cons e es ih =>
      rw [inputRun_cons]
      have hne : ∀ over, e ≠ .buttonUp b over := by
        intro over he
        exact hnu over (by rw [← he]; exact List.mem_cons_self e es)
      obtain ⟨hg', _⟩ := inputStep_grabbed s w b hg e hne
      exact ih _ hg' (fun over hov => hnu over (List.mem_cons_of_mem e hov))
  · intro over; simp [inputStep, hg]
  · intro b' over; simp [inputStep, hg]

/-- Concrete instance of claim C2: with a grab held by button 1 on
widget 3, motion over widget 7 and a press of button 2 over widget 9
both route to widget 3 and leave the grab in place; releasing button 1
over widget 5 routes to widget 3 and clears the grab. -/
theorem grab_exclusive_routing_witness :
    (∀ t ∈ (inputRun { focusWidget := 3, grab := some (3, 1) }
        [.motion 7, .buttonDown 2 9]).2, t = 3)
  ∧ (inputRun { focusWidget := 3, grab := some (3, 1) }
        [.motion 7, .buttonDown 2 9]).1.grab = some (3, 1)
  ∧ (inputStep { focusWidget := 3, grab := some (3, 1) }
        (.buttonUp 1 5)).1.grab = none := by
  have h := grab_exclusive_routing { focusWidget := 3, grab := some (3, 1) } 3 1
    (by decide) [.motion 7, .buttonDown 2 9] (by intro over; simp)
  exact ⟨h.1, h.2.1, (h.2.2.1 5).1⟩

/-! ### C3: redraw scheduling is coalesced per window -/

/-- Per-window redraw scheduling state, mirroring the
`pending_allocation`, `redraw_needed` and `redraw_task_scheduled`
fields of `struct window` in `src/toytoolkit/types.h:221-225`, together
with the number of redraw tasks for this window currently sitting in
the display's deferred queue. -/
structure WindowSched where
  pending_allocation : Rectangle
  fullscreen : Bool
  maximized : Bool
  redraw_needed : Bool
  redraw_task_scheduled : Bool
  queuedRedraws : Nat
deriving DecidableEq, Repr

/-- Modelled from the spec: `window_schedule_redraw` (spec section
4.3); the implementing code (window.c) is not among the sources, only
the `redraw_needed`/`redraw_task_scheduled`/`redraw_task` fields of
`struct window` record the state.  Sets the redraw-needed flag and, if
no redraw task is already scheduled, marks one scheduled and defers it
(one more task in the queue); otherwise defers nothing. -/
def schedule_redraw (w : WindowSched) : WindowSched :=
  if w.redraw_task_scheduled then
    { w with redraw_needed := true }
  else
    { w with redraw_needed := true, redraw_task_scheduled := true,
             queuedRedraws := w.queuedRedraws + 1 }

/-- Modelled from the spec: handling of a shell configure event (spec
section 4.3): the window updates fullscreen/maximized flags and the
pending allocation to the size the server requested, then schedules a
redraw. -/
def configure (w : WindowSched) (width height : Int)
    (fs mx : Bool) : WindowSched :=
  schedule_redraw
    { w with
        pending_allocation :=
          { w.pending_allocation with width := width, height := height },
        fullscreen := fs, maximized := mx }

/-- A window as created with a given allocation: no redraw pending, no
task scheduled, nothing queued. -/
def freshWindow (width height : Int) : WindowSched :=
  { pending_allocation := { x := 0, y := 0, width := width, height := height },
    fullscreen := false, maximized := false,
    redraw_needed := false, redraw_task_scheduled := false,
    queuedRedraws := 0 }

/-- Claim C3: `schedule_redraw` sets the redraw-needed flag and defers
a task only when none is scheduled: while a task is already scheduled,
repeated calls enqueue nothing further, so the call is idempotent and
at most one redraw task is queued concurrently; in particular, from a
fresh 200×150 window, a configure(300,200) arriving twice before the
redraw runs leaves pending allocation 300×200 with exactly one queued
redraw task. -/
theorem schedule_redraw_coalesced (w : WindowSched) :
    schedule_redraw (schedule_redraw w) = schedule_redraw w
  ∧ (schedule_redraw w).redraw_needed = true
  ∧ (w.redraw_task_scheduled = true →
      (schedule_redraw w).queuedRedraws = w.queuedRedraws)
  ∧ (w.queuedRedraws = (if w.redraw_task_scheduled then 1 else 0) →
      (schedule_redraw w).queuedRedraws = 1)
  ∧ ((configure (configure (freshWindow 200 150) 300 200 false false)
        300 200 false false).pending_allocation
        = { x := 0, y := 0, width := 300, height := 200 }
      ∧ (configure (configure (freshWindow 200 150) 300 200 false false)
          300 200 false false).queuedRedraws = 1) := by
  refine ⟨?_, ?_, ?_, ?_, by decide⟩
  · by_cases h : w.redraw_task_scheduled <;> simp [schedule_redraw, h]
  · by_cases h : w.redraw_task_scheduled <;> simp [schedule_redraw, h]
  · intro h; simp [schedule_redraw, h]
  · intro h
    by_cases hs : w.redraw_task_scheduled <;>
      simp [hs, schedule_redraw] at h ⊢ <;> omega

/-- Concrete instance of claim C3: on a window with a redraw task
already scheduled and one task queued, another `schedule_redraw`
changes nothing and the queue stays at one task. -/
theorem schedule_redraw_coalesced_witness :
    (schedule_redraw
        { pending_allocation := { x := 0, y := 0, width := 300, height := 200 },
          fullscreen := false, maximized := false,
          redraw_needed := true, redraw_task_scheduled := true,
          queuedRedraws := 1 }).queuedRedraws = 1 :=
  (schedule_redraw_coalesced
    { pending_allocation := { x := 0, y := 0, width := 300, height := 200 },
      fullscreen := false, maximized := false,
      redraw_needed := true, redraw_task_scheduled := true,
      queuedRedraws := 1 }).2.2.2.1 (by decide)

/-! ### C4: widget tree hit-testing -/

/-- Point-in-allocation test for a widget allocation rectangle. -/
def Rectangle.contains (r : Rectangle) (px py : Int) : Bool :=
  decide (r.x ≤ px) && decide (px < r.x + r.width) &&
  decide (r.y ≤ py) && decide (py < r.y + r.height)

/-- A widget tree: each node holds an identifying handle, its
allocation (the `allocation` field of `struct widget`,
`src/toytoolkit/types.h:266`), and its children in registration order —
`add_widget` appends to the parent's `child_list`, so the last element
is the most recently registered child. -/
inductive WidgetTree
  | node (id : Nat) (alloc : Rectangle) (children : List WidgetTree)

/-- The allocation of a widget tree node. -/
def WidgetTree.alloc : WidgetTree → Rectangle
  | .node _ a _ => a

/-- The children of a widget tree node, in registration order. -/
def WidgetTree.children : WidgetTree → List WidgetTree
  | .node _ _ cs => cs

mutual

/-- Modelled from the spec: hit-testing `widget_at(x, y)` of the widget
tree (spec section 4.4); the implementing code (window.c) is not among
the sources, only `struct widget`'s `child_list`/`allocation` fields in
`src/toytoolkit/types.h:260-288` record the tree.  Returns the deepest
descendant whose allocation contains the point, favoring
later-registered children on overlap, and the widget itself when its
own allocation contains the point but no child's does. -/
def widget_at : WidgetTree → Int → Int → Option WidgetTree
  | .node i a cs, x, y =>
    if a.contains x y then
      match childAt cs x y with
      | some w => some w
      | none => some (.node i a cs)
    else
      none

/-- Hit-test a child list, trying the most recently registered child
(the last of the list) first. -/
def childAt : List WidgetTree → Int → Int → Option WidgetTree
  | [], _, _ => none
  | c :: rest, x, y =>
    match childAt rest x y with
    | some w => some w
    | none => widget_at c x y

end

theorem widget_at_outside (t : WidgetTree) (x y : Int)
    (h : t.alloc.contains x y = false) : widget_at t x y = none := by
  cases t with
  | node i a cs => simp [WidgetTree.alloc] at h; simp [widget_at, h]

theorem childAt_append_singleton (cs : List WidgetTree) (c : WidgetTree)
    (x y : Int) :
    childAt (cs ++ [c]) x y =
      match widget_at c x y with
      | some w => some w
      | none => childAt cs x y := by
  induction cs with
  | nil =>
    simp only [List.nil_append, childAt]
    cases h : widget_at c x y <;> simp
  | cons d rest ih =>
    simp only [List.cons_append, childAt, List.append_eq]
    rw [ih]
    cases h : widget_at c x y <;> cases h' : childAt rest x y <;> simp

/-- Claim C4: `widget_at (x, y)` returns `none` outside the widget's
allocation; returns the widget itself when its allocation contains the
point but no child hit-test succeeds; returns the (deepest) result of a
child's own hit-test when one succeeds; and on the child list the most
recently registered child — the last of `child_list`, where
`add_widget` appends — is consulted first, so of two overlapping
children both containing the point, the later-registered one wins. -/
theorem widget_at_hit_testing (i : Nat) (a : Rectangle)
    (cs : List WidgetTree) (c : WidgetTree) (x y : Int) :
    (a.contains x y = false → widget_at (.node i a cs) x y = none)
  ∧ (a.contains x y = true → childAt cs x y = none →
      widget_at (.node i a cs) x y = some (.node i a cs))
  ∧ (∀ w, a.contains x y = true → childAt cs x y = some w →
      widget_at (.node i a cs) x y = some w)
  ∧ (∀ w, widget_at c x y = some w → childAt (cs ++ [c]) x y = some w)
  ∧ (widget_at c x y = none → childAt (cs ++ [c]) x y = childAt cs x y) := by
  refine ⟨?_, ?_, ?_, ?_, ?_⟩
  · intro h; simp [widget_at, h]
  · intro h hc; simp [widget_at, h, hc]
  · intro w h hc; simp [widget_at, h, hc]
  · intro w h; rw [childAt_append_singleton, h]
  · intro h; rw [childAt_append_singleton, h]

/-- Concrete instance of claim C4: a 100×100 parent with two
overlapping 10×10 children registered in order 1 then 2; at a point in
the overlap the later-registered child 2 wins, at a point only inside
child 1 it is returned, and at a point inside only the parent the
parent itself is returned; outside everything the result is `none`. -/
theorem widget_at_hit_testing_witness :
    widget_at (.node 0 { x := 0, y := 0, width := 100, height := 100 }
        [.node 1 { x := 0, y := 0, width := 10, height := 10 } [],
         .node 2 { x := 5, y := 5, width := 10, height := 10 } []]) 7 7
      = some (.node 2 { x := 5, y := 5, width := 10, height := 10 } [])
  ∧ widget_at (.node 0 { x := 0, y := 0, width := 100, height := 100 }
        [.node 1 { x := 0, y := 0, width := 10, height := 10 } [],
         .node 2 { x := 5, y := 5, width := 10, height := 10 } []]) 2 2
      = some (.node 1 { x := 0, y := 0, width := 10, height := 10 } [])
  ∧ widget_at (.node 0 { x := 0, y := 0, width := 100, height := 100 }
        [.node 1 { x := 0, y := 0, width := 10, height := 10 } [],
         .node 2 { x := 5, y := 5, width := 10, height := 10 } []]) 50 50
      = some (.node 0 { x := 0, y := 0, width := 100, height := 100 }
        [.node 1 { x := 0, y := 0, width := 10, height := 10 } [],
         .node 2 { x := 5, y := 5, width := 10, height := 10 } []])
  ∧ widget_at (.node 0 { x := 0, y := 0, width := 100, height := 100 }
        [.node 1 { x := 0, y := 0, width := 10, height := 10 } [],
         .node 2 { x := 5, y := 5, width := 10, height := 10 } []]) 200 200
      = none := by
  refine ⟨?_, ?_, ?_, ?_⟩
  · exact (widget_at_hit_testing 0 { x := 0, y := 0, width := 100, height := 100 }
      [.node 1 { x := 0, y := 0, width := 10, height := 10 } [],
       .node 2 { x := 5, y := 5, width := 10, height := 10 } []]
      (.node 0 { x := 0, y := 0, width := 1, height := 1 } []) 7 7).2.2.1
      (.node 2 { x := 5, y := 5, width := 10, height := 10 } [])
      (by decide) (by simp [childAt, widget_at, Rectangle.contains])
  · exact (widget_at_hit_testing 0 { x := 0, y := 0, width := 100, height := 100 }
      [.node 1 { x := 0, y := 0, width := 10, height := 10 } [],
       .node 2 { x := 5, y := 5, width := 10, height := 10 } []]
      (.node 0 { x := 0, y := 0, width := 1, height := 1 } []) 2 2).2.2.1
      (.node 1 { x := 0, y := 0, width := 10, height := 10 } [])
      (by decide) (by simp [childAt, widget_at, Rectangle.contains])
  · exact (widget_at_hit_testing 0 { x := 0, y := 0, width := 100, height := 100 }
      [.node 1 { x := 0, y := 0, width := 10, height := 10 } [],
       .node 2 { x := 5, y := 5, width := 10, height := 10 } []]
      (.node 0 { x := 0, y := 0, width := 1, height := 1 } []) 50 50).2.1
      (by decide) (by simp [childAt, widget_at, Rectangle.contains])
  · exact (widget_at_hit_testing 0 { x := 0, y := 0, width := 100, height := 100 }
      [.node 1 { x := 0, y := 0, width := 10, height := 10 } [],
       .node 2 { x := 5, y := 5, width := 10, height := 10 } []]
      (.node 0 { x := 0, y := 0, width := 1, height := 1 } []) 200 200).1
      (by decide)

/-! ### C5: deferred task ordering within one loop iteration -/

/-- An observable action of one event-loop iteration: running one
deferred task (identified by a handle) or reaching the blocking wait. -/
inductive LoopAction
  | ran (t : Nat)
  | blocked
deriving DecidableEq, Repr

/-- Modelled from the spec: `display_defer` (spec section 4.1); the
implementing code (window.c) is not among the sources, only the
`deferred_list` field of `struct display` in
`src/toytoolkit/types.h:104` records the queue.  Enqueues the task at
the tail of the deferred list. -/
def defer (queue : List Nat) (t : Nat) : List Nat := queue ++ [t]

/-- Modelled from the spec: the tail of `display_run`'s iteration (spec
sections 4.1 and 5): the deferred list is drained from the front, each
task running to completion, and only once the list is empty does the
loop reach its blocking wait. -/
def drainDeferred : List Nat → List LoopAction
  | [] => [.blocked]
  | t :: rest => .ran t :: drainDeferred rest

/-- Claim C5: all tasks deferred during one loop iteration execute
before the loop's next blocking wait, in exactly their enqueue order:
draining the queue built by folding `defer` over an enqueue sequence
performs precisely the `ran` actions of that sequence, in order,
followed by the single `blocked` action. -/
theorem deferred_tasks_in_order (es : List Nat) :
    drainDeferred (es.foldl defer []) =
      es.map LoopAction.ran ++ [LoopAction.blocked] := by
  suffices h : ∀ q : List Nat,
      drainDeferred (es.foldl defer q) =
        q.map LoopAction.ran ++ es.map LoopAction.ran ++ [LoopAction.blocked] by
    simpa using h []
  induction es with
  | nil =>
    intro q
    simp only [List.foldl_nil, List.map_nil, List.append_nil]
    induction q with
    | nil => simp [drainDeferred]
    | cons t rest ih => simp [drainDeferred, ih]
  | cons e es ih =>
    intro q
    simp only [List.foldl_cons, defer, ih, List.map_append, List.map_cons,
      List.map_nil]
    simp

/-! ### C6: key-repeat timer discipline -/

/-- Per-seat key-repeat state, mirroring the `repeat_task`,
`repeat_timer_fd`, `repeat_key` and `repeat_time` fields of
`struct input` in `src/toytoolkit/types.h:338-342`: the timer is either
disarmed (`none`) or armed with an absolute deadline, and remembers the
key being repeated together with the configured initial delay and
repeat interval. -/
structure RepeatState where
  armed : Option Nat
  repeat_key : Nat
  delay : Nat
  interval : Nat
deriving DecidableEq, Repr

/-- An event relevant to the key-repeat machinery: a key press or
release at an absolute time, loss of keyboard focus, or a poll of the
repeat timer at an absolute time. -/
inductive RepeatEvent
  | keyDown (k : Nat) (time : Nat)
  | keyUp (k : Nat) (time : Nat)
  | focusLoss
  | timerTick (time : Nat)
deriving DecidableEq, Repr

/-- Modelled from the spec: the key-repeat timer of the input
dispatcher (spec sections 4.5 and 5); the implementing code (window.c)
is not among the sources, only the repeat fields of `struct input`
record the state.  Key-down arms the timer for `delay` from now and
records the key; key-up of the recorded key disarms the timer (rather
than letting it fire and ignoring it), as does focus loss; a timer poll
fires a synthetic repeat of the recorded key only when the timer is
armed and its deadline has passed, re-arming it one interval later.
Returns the new state and the keys repeated by this event. -/
def repeatStep (s : RepeatState) : RepeatEvent → RepeatState × List Nat
  | .keyDown k t => ({ s with armed := some (t + s.delay), repeat_key := k }, [])
  | .keyUp k _ =>
    if k = s.repeat_key then ({ s with armed := none }, []) else (s, [])
  | .focusLoss => ({ s with armed := none }, [])
  | .timerTick t =>
    match s.armed with
    | some d =>
      if d ≤ t then ({ s with armed := some (t + s.interval) }, [s.repeat_key])
      else (s, [])
    | none => (s, [])

/-- Run a sequence of repeat events, collecting every repeated key. -/
def repeatRun (s : RepeatState) : List RepeatEvent → RepeatState × List Nat
  | [] => (s, [])
  | e :: es =>
    let (s', ks) := repeatStep s e
    let (s'', ks') := repeatRun s' es
    (s'', ks ++ ks')

theorem repeatRun_cons (s : RepeatState) (e : RepeatEvent)
    (es : List RepeatEvent) :
    repeatRun s (e :: es) =
      ((repeatRun (repeatStep s e).1 es).1,
        (repeatStep s e).2 ++ (repeatRun (repeatStep s e).1 es).2) := by
  simp [repeatRun]

theorem repeatRun_disarmed_ticks (ts : List Nat) :
    ∀ s : RepeatState, s.armed = none →
      repeatRun s (ts.map RepeatEvent.timerTick) = (s, []) := by
  induction ts with
  | nil => intro s h; simp [repeatRun]
  | cons t ts ih =>
    intro s h
    rw [List.map_cons, repeatRun_cons]
    simp only [repeatStep, h]
    rw [ih s h]
    simp

theorem repeatRun_early_ticks (ts : List Nat) :
    ∀ s : RepeatState, ∀ d : Nat, s.armed = some d →
      (∀ t ∈ ts, t < d) →
      repeatRun s (ts.map RepeatEvent.timerTick) = (s, []) := by
  induction ts with
  | nil => intro s d h _; simp [repeatRun]
  | cons t ts ih =>
    intro s d h hts
    rw [List.map_cons, repeatRun_cons]
    have ht : ¬ d ≤ t := by
      have := hts t (List.mem_cons_self t ts)
      omega
    simp only [repeatStep, h, if_neg ht]
    rw [ih s d h (fun u hu => hts u (List.mem_cons_of_mem t hu))]
    simp

/-- Claim C6: after a key-down at time `t0`, timer polls at times
before `t0 + delay` (the initial delay) emit no repeat; releasing the
same key disarms the timer outright, after which any sequence of timer
polls — at any times — emits no repeat for that key-down; and keyboard
focus loss equally disarms the timer. -/
theorem key_repeat_discipline (s : RepeatState) (k t0 : Nat)
    (ts later : List Nat) (hts : ∀ t ∈ ts, t < t0 + s.delay) :
    (repeatRun (repeatStep s (.keyDown k t0)).1
        (ts.map RepeatEvent.timerTick)).2 = []
  ∧ (repeatStep (repeatStep s (.keyDown k t0)).1 (.keyUp k t0)).1.armed = none
  ∧ (repeatRun (repeatStep (repeatStep s (.keyDown k t0)).1 (.keyUp k t0)).1
        (later.map RepeatEvent.timerTick)).2 = []
  ∧ (repeatStep s .focusLoss).1.armed = none := by
  have hdown : (repeatStep s (.keyDown k t0)).1 =
      { s with armed := some (t0 + s.delay), repeat_key := k } := by
    simp [repeatStep]
  have hup : (repeatStep (repeatStep s (.keyDown k t0)).1 (.keyUp k t0)).1.armed
      = none := by
    rw [hdown]; simp [repeatStep]
  refine ⟨?_, hup, ?_, by simp [repeatStep]⟩
  · rw [hdown]
    rw [repeatRun_early_ticks ts _ (t0 + s.delay) rfl hts]
  · rw [repeatRun_disarmed_ticks later _ hup]

/-- Concrete instance of claim C6: with a 500 ms delay, a key-down at
time 1000 followed by timer polls at 1100 and 1400 emits nothing, and
after the matching key-up the timer is disarmed so polls at 2000 and
9999 also emit nothing. -/
theorem key_repeat_discipline_witness :
    (repeatRun (repeatStep
        { armed := none, repeat_key := 0, delay := 500, interval := 40 }
        (.keyDown 30 1000)).1
        ([1100, 1400].map RepeatEvent.timerTick)).2 = []
  ∧ (repeatRun (repeatStep (repeatStep
        { armed := none, repeat_key := 0, delay := 500, interval := 40 }
        (.keyDown 30 1000)).1 (.keyUp 30 1000)).1
        ([2000, 9999].map RepeatEvent.timerTick)).2 = [] := by
  have h := key_repeat_discipline
    { armed := none, repeat_key := 0, delay := 500, interval := 40 }
    30 1000 [1100, 1400] [2000, 9999] (by decide)
  exact ⟨h.1, h.2.2.1⟩

/-! ### C7: shared-memory pool exhaustion and recovery -/

/-- A shared-memory pool sized for a fixed set of buffers, mirroring
`struct shm_pool`'s `size`/`used` accounting in
`src/toytoolkit/types.h:389-394`: one busy flag per buffer slot, `true`
while the buffer is outstanding with the server. -/
structure ShmPool where
  busy : List Bool
deriving DecidableEq, Repr

/-- Outcome of asking the pool for a canvas: a canvas backed by buffer
slot `i`, or the NoBuffer / AllocationFailure error. -/
inductive PrepareResult
  | canvas (i : Nat)
  | noBuffer
deriving DecidableEq, Repr

/-- The first free buffer slot of the pool, if any. -/
def firstFree : List Bool → Option Nat
  | [] => none
  | b :: rest =>
    if b then (firstFree rest).map (· + 1) else some 0

/-- Modelled from the spec: buffer allocation on `prepare` against a
shared-memory pool (spec sections 4.2 and 7); the implementing code
(window.c) is not among the sources, only `struct shm_pool` in
`src/toytoolkit/types.h` records the arena.  When every buffer is
outstanding, `prepare` fails with NoBuffer/AllocationFailure and the
pool is unchanged; otherwise the first free buffer is marked busy and
returned as the canvas backing. -/
def pool_prepare (p : ShmPool) : ShmPool × PrepareResult :=
  match firstFree p.busy with
  | none => (p, .noBuffer)
  | some i => ({ busy := p.busy.set i true }, .canvas i)

/-- Modelled from the spec: the server releasing buffer `i` back to the
pool (signalled via a frame callback / buffer-release event, spec
section 4.2): the slot becomes reusable. -/
def pool_release (p : ShmPool) (i : Nat) : ShmPool :=
  { busy := p.busy.set i false }

theorem firstFree_all_busy (l : List Bool) (h : ∀ b ∈ l, b = true) :
    firstFree l = none := by
  induction l with
  | nil => simp [firstFree]
  | cons b rest ih =>
    have hb : b = true := h b (List.mem_cons_self b rest)
    rw [firstFree, if_pos hb, ih (fun x hx => h x (List.mem_cons_of_mem b hx))]
    simp

theorem firstFree_set_false (l : List Bool) (i : Nat)
    (h : ∀ b ∈ l, b = true) (hi : i < l.length) :
    firstFree (l.set i false) = some i := by
  induction l generalizing i with
  | nil => simp at hi
  | cons b rest ih =>
    cases i with
    | zero => simp [firstFree]
    | succ j =>
      have hb : b = true := h b (List.mem_cons_self b rest)
      simp only [List.set_cons_succ, firstFree, if_pos hb]
      rw [ih j (fun x hx => h x (List.mem_cons_of_mem b hx))
        (by simpa using hi)]
      simp

/-- Claim C7: when every buffer of the pool is outstanding, `prepare`
fails with the NoBuffer/AllocationFailure result and leaves the pool
unchanged (no other state change); after the server releases one buffer
`i`, the next `prepare` on the pool succeeds, returning a canvas backed
by that slot — the failure is recoverable by retry. -/
theorem shm_pool_exhaustion_recovery (p : ShmPool) (i : Nat)
    (hall : ∀ b ∈ p.busy, b = true) (hi : i < p.busy.length) :
    pool_prepare p = (p, .noBuffer)
  ∧ (pool_prepare (pool_release p i)).2 = .canvas i
  ∧ (pool_prepare (pool_release p i)).1 = { busy := p.busy.set i true } := by
  have hnone : firstFree p.busy = none := firstFree_all_busy p.busy hall
  have hfree : firstFree (p.busy.set i false) = some i :=
    firstFree_set_false p.busy i hall hi
  refine ⟨by simp [pool_prepare, hnone], ?_, ?_⟩
  · simp [pool_prepare, pool_release, hfree]
  · simp only [pool_prepare, pool_release, hfree]
    rw [List.set_set]

/-- Concrete instance of claim C7: a two-buffer pool with both buffers
outstanding; `prepare` fails with NoBuffer, and after buffer 1 is
released the next `prepare` succeeds with a canvas backed by slot 1. -/
theorem shm_pool_exhaustion_recovery_witness :
    pool_prepare { busy := [true, true] } = ({ busy := [true, true] }, .noBuffer)
  ∧ (pool_prepare (pool_release { busy := [true, true] } 1)).2
      = .canvas 1 := by
  have h := shm_pool_exhaustion_recovery { busy := [true, true] } 1
    (by decide) (by decide)
  exact ⟨h.1, h.2.1⟩

/-! ### C8: resize merges with the minimum floor and defers re-issue -/

/-- Per-window resize-negotiation state, mirroring the
`min_allocation`, `pending_allocation`, `resize_needed` fields of
`struct window` in `src/toytoolkit/types.h:219-226` and whether a
shell size negotiation is currently awaiting the server's ack. -/
structure ResizeWindow where
  min_allocation : Rectangle
  pending_allocation : Rectangle
  resize_needed : Bool
  negotiating : Bool
deriving DecidableEq, Repr

/-- A request this window sends to the shell protocol. -/
inductive ShellRequest
  | resizeRequest (width height : Int)
deriving DecidableEq, Repr

/-- Modelled from the spec: `window_resize` (spec section 4.3); the
implementing code (window.c) is not among the sources, only the
allocation and `resize_needed` fields of `struct window` record the
state.  The requested size is merged with the minimum-allocation floor
and stored as pending; when a negotiation with the shell is already in
flight the re-issue is deferred (the resize-needed flag is set, no
request is sent), otherwise a shell request for the merged size goes
out and a negotiation begins.  Returns the new state and the shell
requests issued by this call. -/
def window_resize (win : ResizeWindow) (width height : Int) :
    ResizeWindow × List ShellRequest :=
  let mw := max width win.min_allocation.width
  let mh := max height win.min_allocation.height
  let win' :=
    { win with
        pending_allocation :=
          { win.pending_allocation with width := mw, height := mh } }
  if win.negotiating then
    ({ win' with resize_needed := true }, [])
  else
    ({ win' with negotiating := true }, [.resizeRequest mw mh])

/-- Claim C8: `resize(width, height)` stores as pending allocation the
requested size clamped from below by the minimum-allocation floor
(componentwise max); when a negotiation is already in flight it issues
no shell request and instead records the deferred resize via the
resize-needed flag; when none is in flight it issues exactly one shell
request, for the merged size. -/
theorem resize_merges_and_defers (win : ResizeWindow) (width height : Int) :
    ((window_resize win width height).1.pending_allocation.width
        = max width win.min_allocation.width
      ∧ (window_resize win width height).1.pending_allocation.height
        = max height win.min_allocation.height)
  ∧ (win.negotiating = true →
      (window_resize win width height).2 = []
      ∧ (window_resize win width height).1.resize_needed = true)
  ∧ (win.negotiating = false →
      (window_resize win width height).2
        = [.resizeRequest (max width win.min_allocation.width)
            (max height win.min_allocation.height)]
      ∧ (window_resize win width height).1.negotiating = true) := by
  refine ⟨⟨?_, ?_⟩, fun h => ⟨?_, ?_⟩, fun h => ⟨?_, ?_⟩⟩ <;>
    by_cases hn : win.negotiating <;>
    simp_all [window_resize]

/-- Concrete instance of claim C8: a window with minimum floor 100×50,
negotiating: a resize request to 80×200 stores pending 100×200 and
sends nothing; the same window not negotiating sends exactly one
request for 100×200. -/
theorem resize_merges_and_defers_witness :
    (window_resize
        { min_allocation := { x := 0, y := 0, width := 100, height := 50 },
          pending_allocation := { x := 0, y := 0, width := 100, height := 50 },
          resize_needed := false, negotiating := true } 80 200).2 = []
  ∧ (window_resize
        { min_allocation := { x := 0, y := 0, width := 100, height := 50 },
          pending_allocation := { x := 0, y := 0, width := 100, height := 50 },
          resize_needed := false, negotiating := true }
        80 200).1.pending_allocation.width = 100
  ∧ (window_resize
        { min_allocation := { x := 0, y := 0, width := 100, height := 50 },
          pending_allocation := { x := 0, y := 0, width := 100, height := 50 },
          resize_needed := false, negotiating := false } 80 200).2
      = [.resizeRequest 100 200] := by
  refine ⟨?_, ?_, ?_⟩
  · exact ((resize_merges_and_defers
      { min_allocation := { x := 0, y := 0, width := 100, height := 50 },
        pending_allocation := { x := 0, y := 0, width := 100, height := 50 },
        resize_needed := false, negotiating := true } 80 200).2.1 rfl).1
  · have h := ((resize_merges_and_defers
      { min_allocation := { x := 0, y := 0, width := 100, height := 50 },
        pending_allocation := { x := 0, y := 0, width := 100, height := 50 },
        resize_needed := false, negotiating := true } 80 200).1).1
    simpa using h
  · have h := ((resize_merges_and_defers
      { min_allocation := { x := 0, y := 0, width := 100, height := 50 },
        pending_allocation := { x := 0, y := 0, width := 100, height := 50 },
        resize_needed := false, negotiating := false } 80 200).2.2 rfl).1
    simpa using h

/-! ### C9: at most one outstanding frame callback per surface -/

/-- Frame-callback state of one surface: how many frame callbacks are
outstanding with the server (the `frame_cb` field of `struct surface`
in `src/toytoolkit/types.h:197` holds at most one, here counted so that
the invariant is provable rather than structural), plus the
synchronized-subsurface mode flag. -/
structure FrameSurface where
  outstanding : Nat
  synchronized : Bool
deriving DecidableEq, Repr

/-- An operation affecting the frame callback of one surface. -/
inductive FrameOp
  | swap
  | callbackFired
deriving DecidableEq, Repr

/-- Modelled from the spec: frame-callback management of `swap` (spec
section 4.2); the implementing code (window.c) is not among the
sources, only the `frame_cb` field of `struct surface` records the
callback.  `swap` requests a new frame callback only when none is
outstanding and synchronized mode does not suppress it; when the
callback fires it is cleared. -/
def frameStep (s : FrameSurface) : FrameOp → FrameSurface
  | .swap =>
    if s.outstanding = 0 && !s.synchronized then
      { s with outstanding := s.outstanding + 1 }
    else
      s
  | .callbackFired => { s with outstanding := 0 }

/-- Run a sequence of frame operations. -/
def frameRun (s : FrameSurface) : List FrameOp → FrameSurface
  | [] => s
  | op :: ops => frameRun (frameStep s op) ops

/-- A surface as created: no callback outstanding. -/
def initFrameSurface (sync : Bool) : FrameSurface :=
  { outstanding := 0, synchronized := sync }

theorem frameStep_le_one (s : FrameSurface) (op : FrameOp)
    (h : s.outstanding ≤ 1) : (frameStep s op).outstanding ≤ 1 := by
  cases op with
  | swap =>
    by_cases h0 : s.outstanding = 0 && !s.synchronized
    · rcases Bool.and_eq_true_iff.mp h0 with ⟨h1, h2⟩
      have h1' : s.outstanding = 0 := of_decide_eq_true h1
      simp [frameStep, h0, h1', Bool.not_eq_true' .. ▸ h2]
    · simpa [frameStep, h0] using h
  | callbackFired => simp [frameStep]

/-- Claim C9: for every surface and every sequence of swaps and
callback firings, at most one frame callback is ever outstanding: the
bound `outstanding ≤ 1` is an invariant of every reachable state, a
`swap` while one callback is outstanding requests no second one, a
`swap` in synchronized mode requests none at all, and a callback
firing clears the outstanding callback. -/
theorem frame_callback_at_most_one (ops : List FrameOp) (s : FrameSurface)
    (h : s.outstanding ≤ 1) :
    (frameRun s ops).outstanding ≤ 1
  ∧ (∀ sync : Bool, (frameRun (initFrameSurface sync) ops).outstanding ≤ 1)
  ∧ (s.outstanding = 1 → frameStep s .swap = s)
  ∧ (s.synchronized = true → frameStep s .swap = s)
  ∧ (frameStep s .callbackFired).outstanding = 0 := by
  have run_le : ∀ l : List FrameOp, ∀ u : FrameSurface, u.outstanding ≤ 1 →
      (frameRun u l).outstanding ≤ 1 := by
    intro l
    induction l with
    | nil => intro u hu; simpa [frameRun] using hu
    | cons op l ih =>
      intro u hu
      exact ih (frameStep u op) (frameStep_le_one u op hu)
  refine ⟨run_le ops s h, fun sync => run_le ops _ (by simp [initFrameSurface]),
    ?_, ?_, by simp [frameStep]⟩
  · intro h1; simp [frameStep, h1]
  · intro hs; simp [frameStep, hs]

/-- Concrete instance of claim C9: from a fresh unsynchronized surface,
swap, swap again (no second callback), callback fires, swap again —
never more than one callback outstanding; and a swap with one callback
outstanding changes nothing. -/
theorem frame_callback_at_most_one_witness :
    (frameRun (initFrameSurface false)
        [.swap, .swap, .callbackFired, .swap]).outstanding ≤ 1
  ∧ frameStep { outstanding := 1, synchronized := false } .swap
      = { outstanding := 1, synchronized := false } := by
  have h1 := frame_callback_at_most_one [.swap, .swap, .callbackFired, .swap]
    (initFrameSurface false) (by decide)
  have h2 := frame_callback_at_most_one []
    { outstanding := 1, synchronized := false } (by decide)
  exact ⟨h1.1, h2.2.2.1 rfl⟩

/-! ### C10: toysurface acquire/release sign convention -/

/-- Whether the attempt to make the toysurface current with an EGL
context succeeded. -/
inductive AcquireOutcome
  | success
  | failure
deriving DecidableEq, Repr

/-- EGL-binding state of a toysurface: whether it is currently bound
to a rendering context (acquired) rather than under Cairo's control. -/
structure EglBinding where
  bound : Bool
deriving DecidableEq, Repr

/-- Modelled from the spec: the `acquire` member of `struct toysurface`
(`src/toytoolkit/types.h:168-172`); the implementing variants (the
shared-memory and EGL toysurfaces in window.c) are not among the
sources, and the doc comment in `types.h` records the contract —
"Make the toysurface current with the given EGL context.  Returns 0 on
success, and negative of failure."  On success the surface becomes
bound and the call returns 0; on failure it stays as it was and the
call returns a negative value. -/
def toysurface_acquire (s : EglBinding) (o : AcquireOutcome) :
    EglBinding × Int :=
  match o with
  | .success => ({ bound := true }, 0)
  | .failure => (s, -1)

/-- Modelled from the spec: the `release` member of `struct toysurface`
(`src/toytoolkit/types.h:174-178`) — "Release the toysurface from the
EGL context, returning control to Cairo."  It unbinds unconditionally
and returns nothing (its C type returns `void`). -/
def toysurface_release (_ : EglBinding) : EglBinding :=
  { bound := false }

/-- Claim C10: `acquire` follows the sign-convention error protocol of
its `types.h` doc comment — it returns 0 exactly when it succeeds (and
then the surface is bound), and a negative value exactly when it
fails — while `release` unbinds unconditionally (from any prior state)
and, returning `void`, yields no status. -/
theorem acquire_release_convention (s : EglBinding) :
    (∀ o, (toysurface_acquire s o).2 = 0 ↔ o = .success)
  ∧ (∀ o, (toysurface_acquire s o).2 < 0 ↔ o = .failure)
  ∧ (toysurface_acquire s .success).1.bound = true
  ∧ (∀ b : EglBinding, (toysurface_release b).bound = false) := by
  refine ⟨?_, ?_, by simp [toysurface_acquire], fun b => by simp [toysurface_release]⟩
  · intro o; cases o <;> simp [toysurface_acquire]
  · intro o; cases o <;> simp [toysurface_acquire]

end WlMessage
